import Mathlib

/-!
Shallow embedding of `host_checker_manager.go` (Tyk uptime-test host checker
manager): the key-value store operations it relies on, the manager state, and
the functions `SetExpiry`, `AmIPolling`, `UptimePurgeLoop`, `getHostKey`,
`OnHostDown`, `OnHostBackUp`, `IsHostDown`, `PrepareTrackingHost`,
`UpdateTrackingList`, `RecordUptimeAnalytics` and `SetCheckerHostList`,
followed by theorems settling the specification claims about them.

Go `int64` / `int` values are embedded as `Int` (the quantities involved —
TTLs, retention seconds, response codes, timestamps — stay far below the
`int64` range in every claim, so wrap-around is not modelled). Go maps are
embedded as association lists (with the Go comma-ok / zero-value lookup
conventions made explicit) or, for the rebuilt tracking map, as a function
`String → Option HostData`.
-/

/-- Modelled from the spec: the `RedisClusterStorageManager` store (its Go
definition is outside this file). The spec describes it as a key-value lease
store where a read of an absent key fails with "not found" and writes carry a
TTL in seconds. We embed it as an association list from keys to
(value, TTL-seconds) pairs; TTL countdown itself is not modelled — each entry
records the TTL it was last written with. -/
def Store : Type := List (String × String × Int)

instance : DecidableEq Store := by
  unfold Store
  infer_instance

deriving instance DecidableEq for Except

/-- The empty store. -/
def emptyStore : Store := []

/-- Modelled from the spec: `store.GetKey` — return the stored value, or fail
with a not-found error when the key is absent. -/
def GetKey (st : Store) (k : String) : Except String String :=
  match st.find? (fun e => e.1 == k) with
  | some e => Except.ok e.2.1
  | none => Except.error "key not found"

/-- Modelled from the spec: `store.SetKey key value ttl` — upsert the key with
the given value and TTL in seconds. -/
def SetKey (st : Store) (k v : String) (ttl : Int) : Store :=
  (k, v, ttl) :: st.filter (fun e => !(e.1 == k))

/-- Modelled from the spec: `store.DeleteKey` — remove the key. -/
def DeleteKey (st : Store) (k : String) : Store :=
  st.filter (fun e => !(e.1 == k))

/-- One observable store operation, used to record which reads and writes a
code path performs. -/
inductive StoreOp : Type
  | getKey (k : String)
  | setKey (k v : String) (ttl : Int)
  | deleteKey (k : String)
deriving DecidableEq

/-- Constant `PollerCacheKey` from the source. -/
def PollerCacheKey : String := "PollerActiveInstanceID"

/-- Constant `PoolerHostSentinelKeyPrefix` from the source. -/
def PoolerHostSentinelKeyPrefix : String := "PollerCheckerInstance:"

/-- Constant `UnHealthyHostMetaDataTargetKey` from the source. -/
def UnHealthyHostMetaDataTargetKey : String := "target_url"

/-- Constant `UnHealthyHostMetaDataAPIKey` from the source. -/
def UnHealthyHostMetaDataAPIKey : String := "api_id"

/-- Constant `UnHealthyHostMetaDataHostKey` from the source. -/
def UnHealthyHostMetaDataHostKey : String := "host_name"

/-- Go map lookup with the zero-value convention: `m[k]` on a
`map[string]string` returns `""` when the key is absent. -/
def metaLookup (m : List (String × String)) (k : String) : String :=
  match m.find? (fun p => p.1 == k) with
  | some p => p.2
  | none => ""

/-- A nanosecond, as `time.Duration` (Go durations are int64 nanoseconds). -/
def nsSecond : Int := 1000000000

/-- One hour in nanoseconds (`time.Hour`). -/
def nsHour : Int := 3600 * nsSecond

/-- Embedding of `time.Time`: the instant in Unix nanoseconds together with
its calendar components (so `t.Day()`, `t.Month()`, `t.Year()`, `t.Hour()`
are projections). -/
structure TimeVal : Type where
  unixNano : Int
  day : Int
  month : Int
  year : Int
  hour : Int
deriving DecidableEq

/-- `UptimeReportData` from the source (times as Unix nanoseconds). -/
structure UptimeReportData : Type where
  URL : String
  RequestTime : Int
  ResponseCode : Int
  TCPError : Bool
  ServerError : Bool
  Day : Int
  Month : Int
  Year : Int
  Hour : Int
  TimeStamp : Int
  ExpireAt : Int
  APIID : String
  OrgID : String
deriving DecidableEq

/-- Default (zero-valued) `UptimeReportData`, for building concrete inputs. -/
def zeroReportData : UptimeReportData :=
  { URL := "", RequestTime := 0, ResponseCode := 0, TCPError := false,
    ServerError := false, Day := 0, Month := 0, Year := 0, Hour := 0,
    TimeStamp := 0, ExpireAt := 0, APIID := "", OrgID := "" }

/-- `SetExpiry` from the source: `expiry := expiresInSeconds * time.Second`;
if `expiresInSeconds == 0` the expiry becomes `(24 * time.Hour) * (365 * 100)`
(100 years); `ExpireAt := time.Now().Add(expiry)`. The call instant is passed
explicitly as `now`. -/
def SetExpiry (u : UptimeReportData) (now : TimeVal) (expiresInSeconds : Int) :
    UptimeReportData :=
  let expiry : Int := expiresInSeconds * nsSecond
  let expiry : Int :=
    if expiresInSeconds = 0 then (24 * nsHour) * (365 * 100) else expiry
  { u with ExpireAt := now.unixNano + expiry }

/-- Result of parsing a URL: scheme, host (authority) and path, the components
the manager uses. -/
structure GoURL : Type where
  scheme : String
  host : String
  path : String
deriving DecidableEq

/-- True when the string contains an ASCII control byte, which makes Go's
`url.Parse` fail. -/
def hasCtlByte (s : String) : Bool :=
  s.toList.any (fun c => c.toNat < 0x20 || c.toNat == 0x7f)

/-- Split a character list at the first occurrence of a separator sequence:
returns the part before and the part after, or `none` when the separator does
not occur. -/
def listSplitFirst (sep : List Char) : List Char → Option (List Char × List Char)
  | [] => none
  | c :: rest =>
    if sep.isPrefixOf (c :: rest) then some ([], (c :: rest).drop sep.length)
    else
      match listSplitFirst sep rest with
      | some (pre, post) => some (c :: pre, post)
      | none => none

/-- Modelled from the spec: Go's `net/url.Parse`, restricted to what the
manager needs — it fails on URLs containing control characters, and otherwise
splits `scheme://host/path` into its components: the host (authority) runs
from after `://` to the next `/` (a string with no `://` is treated as having
an empty host). -/
def urlParse (s : String) : Except String GoURL :=
  if hasCtlByte s then
    Except.error "net/url: invalid control character in URL"
  else
    match listSplitFirst ([':', '/', '/']) s.toList with
    | none => Except.ok { scheme := "", host := "", path := s }
    | some (sch, after) =>
      Except.ok { scheme := String.mk sch,
                  host := String.mk (after.takeWhile (fun c => !(c == '/'))),
                  path := String.mk (after.dropWhile (fun c => !(c == '/'))) }

/-- Value of a character in the standard base64 alphabet, `none` when it is
not in the alphabet. -/
def b64Val (c : Char) : Option Nat :=
  if 'A' ≤ c ∧ c ≤ 'Z' then some (c.toNat - 65)
  else if 'a' ≤ c ∧ c ≤ 'z' then some (c.toNat - 97 + 26)
  else if '0' ≤ c ∧ c ≤ '9' then some (c.toNat - 48 + 52)
  else if c = '+' then some 62
  else if c = '/' then some 63
  else none

/-- Modelled from the spec: Go's `base64.StdEncoding.DecodeString` quantum
loop — consume four characters at a time, the final quantum may end in one or
two `=` padding characters, anything else is a corrupt-input error. Returns
the decoded bytes. -/
def b64DecodeGroups : List Char → Except String (List Nat)
  | [] => Except.ok []
  | c1 :: c2 :: c3 :: c4 :: rest =>
    match b64Val c1, b64Val c2 with
    | some v1, some v2 =>
      if c3 = '=' then
        if c4 = '=' ∧ rest = [] then
          Except.ok [v1 * 4 + v2 / 16]
        else Except.error "illegal base64 data"
      else
        match b64Val c3 with
        | some v3 =>
          if c4 = '=' then
            if rest = [] then
              Except.ok [v1 * 4 + v2 / 16, (v2 % 16) * 16 + v3 / 4]
            else Except.error "illegal base64 data"
          else
            match b64Val c4 with
            | some v4 =>
              match b64DecodeGroups rest with
              | Except.ok bs =>
                Except.ok ([v1 * 4 + v2 / 16, (v2 % 16) * 16 + v3 / 4,
                            (v3 % 4) * 64 + v4] ++ bs)
              | Except.error e => Except.error e
            | none => Except.error "illegal base64 data"
        | none => Except.error "illegal base64 data"
    | _, _ => Except.error "illegal base64 data"
  | _ => Except.error "illegal base64 data"

/-- Modelled from the spec: `base64.StdEncoding.DecodeString` — newlines are
ignored, then the input is decoded in four-character quanta (so its filtered
length must be a multiple of four). -/
def b64DecodeString (s : String) : Except String (List Nat) :=
  b64DecodeGroups (s.toList.filter (fun c => !(c == '\n') && !(c == '\r')))

/-- Go `string(bytes)` on decoded base64: the bytes reinterpreted as a
character list (all values are below 256, so this is faithful for the
byte-for-byte content the manager stores in `Body`). -/
def bytesToString (bs : List Nat) : String :=
  String.mk (bs.map Char.ofNat)

/-- Modelled from the spec: `tykcommon.HostCheckObject` — one uptime check
configuration (URL, method, headers, base64-encoded body). -/
structure HostCheckObject : Type where
  CheckURL : String
  Method : String
  Headers : List (String × String)
  Body : String
deriving DecidableEq

/-- Modelled from the spec: `HostData` — a prepared tracking descriptor for
one uptime check (its Go definition lives in the checker file, outside this
file; fields are those the manager populates and reads). -/
structure HostData : Type where
  CheckURL : String
  ID : String
  MetaData : List (String × String)
  Method : String
  Headers : List (String × String)
  Body : String
deriving DecidableEq

/-- Modelled from the spec: `HostHealthReport` — a probe outcome report
(fields are those the manager reads: check URL, response code, latency, TCP
error flag and the metadata map it attached in `PrepareTrackingHost`). -/
structure HostHealthReport : Type where
  CheckURL : String
  ResponseCode : Int
  Latency : Int
  IsTCPError : Bool
  MetaData : List (String × String)
deriving DecidableEq

/-- Modelled from the spec: the part of an `APISpec` the manager consults —
its org id and the uptime-analytics retention seconds
(`UptimeTests.Config.ExpireUptimeAnalyticsAfter`). `ApiSpecRegister` itself is
declared outside this file; per the spec, a failed lookup is non-fatal and the
consulted fields then take their zero values. -/
structure APISpec : Type where
  OrgID : String
  ExpireUptimeAnalyticsAfter : Int
deriving DecidableEq

/-- Lookup in `ApiSpecRegister`, embedded as an association list with the Go
comma-ok convention (`none` when absent). -/
def registryFind (reg : List (String × APISpec)) (apiId : String) :
    Option APISpec :=
  match reg.find? (fun p => p.1 == apiId) with
  | some p => some p.2
  | none => none

/-- Modelled from the spec: `HostUptimeChecker` — only its current host list
is observable to the manager (via `ResetList`). -/
structure HostUptimeChecker : Type where
  HostList : String → Option HostData

/-- `HostCheckerManager` from the source. `store` is an `Option` because the
Go field is a nilable pointer; `checker` likewise. The tracking map
`currentHostList` is embedded as a lookup function (a nil Go map reads as
all-absent). -/
structure HostCheckerManager : Type where
  Id : String
  store : Option Store
  checker : Option HostUptimeChecker
  stopLoop : Bool
  pollerStarted : Bool
  currentHostList : String → Option HostData

/-- Result of one `AmIPolling` call: the returned boolean, the store after
the call (unchanged when the manager has none), and the store operations the
call performed, in order. -/
structure PollResult : Type where
  isPolling : Bool
  store : Option Store
  ops : List StoreOp

/-- `AmIPolling` from the source: with no store configured, log an error and
return false; otherwise read `PollerCacheKey` — on a not-found error claim
the lease (write own id, TTL 15) and return true; on success renew when the
value is our own id (write own id, TTL 15) and return true, else return
false. -/
def AmIPolling (hc : HostCheckerManager) : PollResult :=
  match hc.store with
  | none => { isPolling := false, store := none, ops := [] }
  | some st =>
    match GetKey st PollerCacheKey with
    | Except.error _ =>
      { isPolling := true,
        store := some (SetKey st PollerCacheKey hc.Id 15),
        ops := [StoreOp.getKey PollerCacheKey,
                StoreOp.setKey PollerCacheKey hc.Id 15] }
    | Except.ok activeInstance =>
      if activeInstance = hc.Id then
        { isPolling := true,
          store := some (SetKey st PollerCacheKey hc.Id 15),
          ops := [StoreOp.getKey PollerCacheKey,
                  StoreOp.setKey PollerCacheKey hc.Id 15] }
      else
        { isPolling := false, store := some st,
          ops := [StoreOp.getKey PollerCacheKey] }

/-- One iteration body of the `UptimePurgeLoop` for-loop: purge only when the
last-known leadership flag `pollerStarted` is set and a purger (`hc.Clean`)
is installed. Returns whether `PurgeCache` was invoked this iteration. -/
def purgeIter (pollerStarted cleanSet : Bool) : Bool :=
  if pollerStarted then
    if cleanSet then true else false
  else false

/-- `UptimePurgeLoop` from the source. The Go loop is infinite and re-reads
`hc.pollerStarted` and `hc.Clean` each iteration; we embed the observed
values per iteration as the list `iters` of (pollerStarted, Clean-non-nil)
pairs. The result is (warned-and-returned-immediately, purge-invoked flag per
iteration): when `config.AnalyticsConfig.PurgeDelay == -1` the function logs a
warning and returns before the loop, so no iteration runs. -/
def UptimePurgeLoop (purgeDelay : Int) (iters : List (Bool × Bool)) :
    Bool × List Bool :=
  if purgeDelay = -1 then (true, [])
  else (false, iters.map (fun it => purgeIter it.1 it.2))

/-- `getHostKey` from the source:
`PoolerHostSentinelKeyPrefix + report.MetaData[UnHealthyHostMetaDataHostKey]`. -/
def getHostKey (report : HostHealthReport) : String :=
  PoolerHostSentinelKeyPrefix ++ metaLookup report.MetaData UnHealthyHostMetaDataHostKey

/-- A host status event fired through the API spec (`EVENT_HOSTDOWN` /
`EVENT_HOSTUP`), carrying the full report. -/
inductive HostEvent : Type
  | hostDown (report : HostHealthReport)
  | hostUp (report : HostHealthReport)
deriving DecidableEq

/-- `OnHostDown` from the source: set the host sentinel key to "1" with TTL
`config.UptimeTests.Config.TimeWait`, then look the report's API id up in
`ApiSpecRegister`; when absent, log a warning and return (no event); when
present, fire `EVENT_HOSTDOWN` carrying the report. Returns the updated store
and the events fired. -/
def OnHostDown (st : Store) (reg : List (String × APISpec)) (timeWait : Int)
    (report : HostHealthReport) : Store × List HostEvent :=
  let st1 := SetKey st (getHostKey report) "1" timeWait
  match registryFind reg (metaLookup report.MetaData UnHealthyHostMetaDataAPIKey) with
  | none => (st1, [])
  | some _ => (st1, [HostEvent.hostDown report])

/-- `OnHostBackUp` from the source: delete the host sentinel key, then fire
`EVENT_HOSTUP` when the report's API id is registered. -/
def OnHostBackUp (st : Store) (reg : List (String × APISpec))
    (report : HostHealthReport) : Store × List HostEvent :=
  let st1 := DeleteKey st (getHostKey report)
  match registryFind reg (metaLookup report.MetaData UnHealthyHostMetaDataAPIKey) with
  | none => (st1, [])
  | some _ => (st1, [HostEvent.hostUp report])

/-- `IsHostDown` from the source: parse the URL (a parse failure in Go leaves
`u` nil and the next line would fault, embedded as `none`), then read the
sentinel key for the URL's host; the function returns true exactly when the
read FAILS (`fErr != nil`), i.e. when the key is absent. -/
def IsHostDown (st : Store) (thisUrl : String) : Option Bool :=
  match urlParse thisUrl with
  | Except.error _ => none
  | Except.ok u =>
    match GetKey st ( PoolerHostSentinelKeyPrefix ++ u.host) with
    | Except.error _ => some true
    | Except.ok _ => some false

/-- `PrepareTrackingHost` from the source: parse the check URL (propagating a
parse error), base64-decode the body when non-empty (propagating a decode
error), and build the `HostData` descriptor with the target/api-id/host-name
metadata. -/
def PrepareTrackingHost (checkObject : HostCheckObject) (APIID : String) :
    Except String HostData :=
  match urlParse checkObject.CheckURL with
  | Except.error e => Except.error e
  | Except.ok u =>
    match
      (if checkObject.Body.length > 0 then
        match b64DecodeString checkObject.Body with
        | Except.error e => Except.error e
        | Except.ok bs => Except.ok (bytesToString bs)
      else Except.ok "") with
    | Except.error e => Except.error e
    | Except.ok bodyData =>
      Except.ok
        { CheckURL := checkObject.CheckURL,
          ID := checkObject.CheckURL,
          MetaData := [(UnHealthyHostMetaDataTargetKey, checkObject.CheckURL),
                       (UnHealthyHostMetaDataAPIKey, APIID),
                       (UnHealthyHostMetaDataHostKey, u.host)],
          Method := checkObject.Method,
          Headers := checkObject.Headers,
          Body := bodyData }

/-- The fresh tracking map built by `UpdateTrackingList`:
`newHostList := make(map[string]HostData)` followed by
`newHostList[host.CheckURL] = host` for each descriptor in order (so a later
descriptor with the same URL overwrites an earlier one). -/
def buildNewHostList (hd : List HostData) : String → Option HostData :=
  hd.foldl (fun m host => fun k => if k = host.CheckURL then some host else m k)
    (fun _ => none)

/-- `UpdateTrackingList` from the source: replace `currentHostList` wholesale
with the freshly built map and, when a checker exists, push the new map to it
via `ResetList`. -/
def UpdateTrackingList (hc : HostCheckerManager) (hd : List HostData) :
    HostCheckerManager :=
  let newHostList := buildNewHostList hd
  { hc with
    currentHostList := newHostList,
    checker :=
      match hc.checker with
      | some c => some { c with HostList := newHostList }
      | none => none }

/-- `RecordUptimeAnalytics` from the source, producing the analytics record it
encodes and appends: look the report's API id up in `ApiSpecRegister` (a miss
is non-fatal — per the spec the org field is then left empty and the consulted
retention seconds is the zero value 0), derive `serverError` as
`ResponseCode > 200`, build the record from the report and the current time,
and stamp its expiry with `SetExpiry`. -/
def RecordUptimeAnalytics (reg : List (String × APISpec))
    (report : HostHealthReport) (now : TimeVal) : UptimeReportData :=
  let specOpt := registryFind reg (metaLookup report.MetaData UnHealthyHostMetaDataAPIKey)
  let thisOrg := match specOpt with
    | some s => s.OrgID
    | none => ""
  let serverError : Bool := if report.ResponseCode > 200 then true else false
  let newAnalyticsRecord : UptimeReportData :=
    { URL := report.CheckURL,
      RequestTime := report.Latency,
      ResponseCode := report.ResponseCode,
      TCPError := report.IsTCPError,
      ServerError := serverError,
      Day := now.day,
      Month := now.month,
      Year := now.year,
      Hour := now.hour,
      TimeStamp := now.unixNano,
      ExpireAt := 0,
      APIID := metaLookup report.MetaData UnHealthyHostMetaDataAPIKey,
      OrgID := thisOrg }
  SetExpiry newAnalyticsRecord now
    (match specOpt with
     | some s => s.ExpireUptimeAnalyticsAfter
     | none => 0)

/-- `SetCheckerHostList`'s loop body over the flattened check configurations
(each paired with its API's id): append the descriptor when
`PrepareTrackingHost` succeeds, log a warning (counted here) when it fails.
Returns the accumulated host list and the number of failures logged. -/
def SetCheckerHostList (items : List (HostCheckObject × String)) :
    List HostData × Nat :=
  items.foldl
    (fun acc it =>
      match PrepareTrackingHost it.1 it.2 with
      | Except.ok newHostDoc => (acc.1 ++ [newHostDoc], acc.2)
      | Except.error _ => (acc.1, acc.2 + 1))
    ([], 0)

/-- Reading a key immediately after writing it yields the written value. -/
theorem GetKey_SetKey_same (st : Store) (k v : String) (ttl : Int) :
    GetKey (SetKey st k v ttl) k = Except.ok v := by
  simp [GetKey, SetKey]

/-- C3: `SetExpiry(expiresInSeconds)` sets `ExpireAt` to now plus
`expiresInSeconds` seconds when `expiresInSeconds` is nonzero, and when it is
0 sets `ExpireAt` to now plus a 100-year duration, which is strictly greater
than now plus 10 years. -/
theorem SetExpiry_retention_spec (u : UptimeReportData) (now : TimeVal)
    (s : Int) (hs : s ≠ 0) :
    (SetExpiry u now s).ExpireAt = now.unixNano + s * nsSecond ∧
    (SetExpiry u now 0).ExpireAt = now.unixNano + (24 * nsHour) * (365 * 100) ∧
    now.unixNano + 10 * 365 * (24 * nsHour) < (SetExpiry u now 0).ExpireAt := by
  refine ⟨?_, ?_, ?_⟩
  · simp [SetExpiry, hs]
  · simp [SetExpiry]
  · simp only [SetExpiry, if_pos rfl, nsHour, nsSecond]
    norm_num

/-- Witness for C3 at a concrete record, instant and retention. -/
theorem SetExpiry_retention_spec_witness :
    (SetExpiry zeroReportData
        { unixNano := 1000, day := 1, month := 1, year := 2015, hour := 0 }
        60).ExpireAt = 1000 + 60 * nsSecond ∧
    1000 + 10 * 365 * (24 * nsHour) <
      (SetExpiry zeroReportData
        { unixNano := 1000, day := 1, month := 1, year := 2015, hour := 0 }
        0).ExpireAt := by
  have h := SetExpiry_retention_spec zeroReportData
    { unixNano := 1000, day := 1, month := 1, year := 2015, hour := 0 }
    60 (by decide)
  exact ⟨h.1, h.2.2⟩

/-- C10: `AmIPolling` on a manager whose store is nil returns false and
performs no store operation at all. -/
theorem AmIPolling_nil_store_spec (hc : HostCheckerManager)
    (h : hc.store = none) :
    AmIPolling hc = { isPolling := false, store := none, ops := [] } := by
  simp [AmIPolling, h]

/-- Concrete manager with no store configured. -/
def hcNilStore : HostCheckerManager :=
  { Id := "instance-A", store := none, checker := none, stopLoop := false,
    pollerStarted := false, currentHostList := fun _ => none }

/-- Witness for C10 at a concrete manager. -/
theorem AmIPolling_nil_store_spec_witness :
    AmIPolling hcNilStore = { isPolling := false, store := none, ops := [] } :=
  AmIPolling_nil_store_spec hcNilStore rfl

/-- C2: `AmIPolling` with a configured store: a not-found read claims the
lease (writes own id with TTL 15, returns true); a read of our own id renews
it (same write, returns true); a read of a different id returns false with no
write — the only operation performed is the read. -/
theorem AmIPolling_lease_spec (hc : HostCheckerManager) (st : Store)
    (e v : String) (h : hc.store = some st) :
    (GetKey st PollerCacheKey = Except.error e →
      AmIPolling hc =
        { isPolling := true,
          store := some (SetKey st PollerCacheKey hc.Id 15),
          ops := [StoreOp.getKey PollerCacheKey,
                  StoreOp.setKey PollerCacheKey hc.Id 15] }) ∧
    (GetKey st PollerCacheKey = Except.ok hc.Id →
      AmIPolling hc =
        { isPolling := true,
          store := some (SetKey st PollerCacheKey hc.Id 15),
          ops := [StoreOp.getKey PollerCacheKey,
                  StoreOp.setKey PollerCacheKey hc.Id 15] }) ∧
    (GetKey st PollerCacheKey = Except.ok v → v ≠ hc.Id →
      AmIPolling hc =
        { isPolling := false, store := some st,
          ops := [StoreOp.getKey PollerCacheKey] }) := by
  refine ⟨fun hget => ?_, fun hget => ?_, fun hget hne => ?_⟩
  · simp [AmIPolling, h, hget]
  · simp [AmIPolling, h, hget]
  · simp [AmIPolling, h, hget, hne]

/-- Concrete manager "instance-A" over an empty store. -/
def hcInstanceA : HostCheckerManager :=
  { Id := "instance-A", store := some emptyStore, checker := none,
    stopLoop := false, pollerStarted := false,
    currentHostList := fun _ => none }

/-- Witness for C2: instance A over an empty store hits the not-found branch,
claims the lease with TTL 15 and returns true. -/
theorem AmIPolling_lease_spec_witness :
    AmIPolling hcInstanceA =
      { isPolling := true,
        store := some (SetKey emptyStore PollerCacheKey hcInstanceA.Id 15),
        ops := [StoreOp.getKey PollerCacheKey,
                StoreOp.setKey PollerCacheKey hcInstanceA.Id 15] } :=
  (AmIPolling_lease_spec hcInstanceA emptyStore "key not found" "" rfl).1 rfl

/-- C5: `OnHostDown` writes the DownMarker for the report's host key with TTL
equal to the configured failure window before tenant resolution — the marker
is set (and readable) even when the API id is not in the registry, in which
case no event is fired and the call still completes. -/
theorem OnHostDown_marker_before_event (st : Store)
    (reg : List (String × APISpec)) (timeWait : Int)
    (report : HostHealthReport) :
    (OnHostDown st reg timeWait report).1 =
      SetKey st (getHostKey report) "1" timeWait ∧
    GetKey (OnHostDown st reg timeWait report).1 (getHostKey report) =
      Except.ok "1" ∧
    (registryFind reg (metaLookup report.MetaData UnHealthyHostMetaDataAPIKey) =
        none →
      (OnHostDown st reg timeWait report).2 = []) := by
  refine ⟨?_, ?_, fun hreg => ?_⟩
  · unfold OnHostDown
    split <;> rfl
  · have h1 : (OnHostDown st reg timeWait report).1 =
        SetKey st (getHostKey report) "1" timeWait := by
      unfold OnHostDown
      split <;> rfl
    rw [h1]
    exact GetKey_SetKey_same st (getHostKey report) "1" timeWait
  · simp [OnHostDown, hreg]

/-- Concrete failure report for host `api.example.com` under tenant/API id
`t1`, with the metadata `PrepareTrackingHost` would attach. -/
def reportApiExample : HostHealthReport :=
  { CheckURL := "http://api.example.com/path", ResponseCode := 500,
    Latency := 10, IsTCPError := false,
    MetaData := [("target_url", "http://api.example.com/path"),
                 ("api_id", "t1"),
                 ("host_name", "api.example.com")] }

/-- Witness for C5: with an empty registry the marker for
`PollerCheckerInstance:api.example.com` is written with the configured TTL
and no event is fired. -/
theorem OnHostDown_marker_before_event_witness :
    GetKey (OnHostDown emptyStore [] 10 reportApiExample).1
        (getHostKey reportApiExample) = Except.ok "1" ∧
    (OnHostDown emptyStore [] 10 reportApiExample).2 = [] := by
  have h := OnHostDown_marker_before_event emptyStore [] 10 reportApiExample
  exact ⟨h.2.1, h.2.2 rfl⟩

/-- C1 (evidence of the code bug): after `OnHostDown` for host
`api.example.com` the DownMarker is present in the store, yet `IsHostDown` of
a URL with that host returns FALSE; and on the empty store, where no marker
exists, `IsHostDown` returns TRUE — the source's `fErr != nil` test (key
absent) is inverted with respect to its own `// Found a key, the host is
down` comment and the spec. After `OnHostBackUp` deletes the marker the
function again returns true. -/
theorem IsHostDown_inverted_at_failing_input :
    GetKey (OnHostDown emptyStore [] 10 reportApiExample).1
        ( PoolerHostSentinelKeyPrefix ++ "api.example.com") = Except.ok "1" ∧
    IsHostDown (OnHostDown emptyStore [] 10 reportApiExample).1
        "http://api.example.com/path" = some false ∧
    IsHostDown emptyStore "http://api.example.com/path" = some true ∧
    IsHostDown
        (OnHostBackUp (OnHostDown emptyStore [] 10 reportApiExample).1 []
          reportApiExample).1
        "http://api.example.com/path" = some true := by
  decide

/-- C7: the `ServerError` flag of the analytics record produced by
`RecordUptimeAnalytics` is true if and only if the report's response code is
strictly greater than 200. -/
theorem RecordUptimeAnalytics_serverError_iff (reg : List (String × APISpec))
    (report : HostHealthReport) (now : TimeVal) :
    (RecordUptimeAnalytics reg report now).ServerError = true ↔
      report.ResponseCode > 200 := by
  by_cases h : report.ResponseCode > 200 <;>
    simp [RecordUptimeAnalytics, SetExpiry, h]

/-- C8: when the report's tenant/API id is not in the registry,
`RecordUptimeAnalytics` still produces a record (non-fatally) and its `OrgID`
field is the empty string. -/
theorem RecordUptimeAnalytics_missing_api_org_empty
    (reg : List (String × APISpec)) (report : HostHealthReport) (now : TimeVal)
    (h : registryFind reg
        (metaLookup report.MetaData UnHealthyHostMetaDataAPIKey) = none) :
    (RecordUptimeAnalytics reg report now).OrgID = "" := by
  simp [RecordUptimeAnalytics, SetExpiry, h]

/-- Witness for C8: a report whose API id `t1` is absent from a concrete
registry yields an empty org field. -/
theorem RecordUptimeAnalytics_missing_api_org_empty_witness :
    (RecordUptimeAnalytics [("other", { OrgID := "org9", ExpireUptimeAnalyticsAfter := 60 })]
        reportApiExample
        { unixNano := 1000, day := 1, month := 1, year := 2015, hour := 0 }).OrgID = "" :=
  RecordUptimeAnalytics_missing_api_org_empty
    [("other", { OrgID := "org9", ExpireUptimeAnalyticsAfter := 60 })]
    reportApiExample
    { unixNano := 1000, day := 1, month := 1, year := 2015, hour := 0 }
    (by decide)

/-- One loop iteration purges exactly when both the leadership flag and the
purger are present. -/
theorem purgeIter_eq_and (p c : Bool) : purgeIter p c = (p && c) := by
  cases p <;> cases c <;> rfl

/-- In the per-iteration purge flags built by mapping `_ && _`, a true entry
at position `i` implies the leadership flag was set at position `i`. -/
theorem getD_map_and_imp (l : List (Bool × Bool)) (i : Nat)
    (h : (l.map (fun it => it.1 && it.2)).getD i false = true) :
    (l.getD i (false, false)).1 = true := by
  induction l generalizing i with
  | nil => simp at h
  | cons a l ih =>
    cases i with
    | zero =>
      simp only [List.map_cons, List.getD_cons_zero] at h
      simp only [List.getD_cons_zero]
      exact (Bool.and_eq_true a.1 a.2 ▸ h :
        a.1 = true ∧ a.2 = true).1
    | succ n =>
      simp only [List.map_cons, List.getD_cons_succ] at h
      simp only [List.getD_cons_succ]
      exact ih n h

/-- C9: with the purge interval set to the disabled sentinel (-1),
`UptimePurgeLoop` warns and returns immediately, running no iteration and
never purging; with any other interval it enters the loop and purges only in
iterations where the last-known leadership flag `pollerStarted` is set (and a
purger is installed). -/
theorem UptimePurgeLoop_purge_spec (d : Int) (iters : List (Bool × Bool))
    (hd : d ≠ -1) :
    UptimePurgeLoop (-1) iters = (true, []) ∧
    (UptimePurgeLoop d iters).1 = false ∧
    (UptimePurgeLoop d iters).2 = iters.map (fun it => it.1 && it.2) ∧
    (∀ i, (UptimePurgeLoop d iters).2.getD i false = true →
      (iters.getD i (false, false)).1 = true) := by
  have hmap : (UptimePurgeLoop d iters).2 = iters.map (fun it => it.1 && it.2) := by
    simp [UptimePurgeLoop, hd, purgeIter_eq_and]
  refine ⟨by simp [UptimePurgeLoop], by simp [UptimePurgeLoop, hd], hmap, ?_⟩
  intro i hi
  rw [hmap] at hi
  exact getD_map_and_imp iters i hi

/-- Witness for C9: interval 10, three iterations — leader with purger,
non-leader with purger, leader without purger — purge fires only in the
first. -/
theorem UptimePurgeLoop_purge_spec_witness :
    UptimePurgeLoop (-1) [(true, true), (false, true), (true, false)] =
      (true, []) ∧
    (UptimePurgeLoop 10 [(true, true), (false, true), (true, false)]).2 =
      [true, false, false] := by
  have h := UptimePurgeLoop_purge_spec 10
    [(true, true), (false, true), (true, false)] (by decide)
  exact ⟨h.1, by rw [h.2.2.1]; rfl⟩

/-- The rebuilt tracking map returns, for each URL, the LAST descriptor in
the input list with that check URL (Go map assignment in a forward loop:
last write wins). -/
theorem buildNewHostList_eq_find (hd : List HostData) (url : String) :
    buildNewHostList hd url = hd.reverse.find? (fun h => h.CheckURL == url) := by
  induction hd using List.reverseRecOn with
  | nil => rfl
  | append_singleton l a ih =>
    by_cases h : url = a.CheckURL
    · subst h
      simp [buildNewHostList, List.foldl_append]
    · simp [buildNewHostList, List.foldl_append, h, Ne.symm h]
      exact ih

/-- A URL that occurs in no input descriptor is absent from the rebuilt
tracking map. -/
theorem buildNewHostList_not_mem (hd : List HostData) (url : String)
    (h : url ∉ hd.map HostData.CheckURL) : buildNewHostList hd url = none := by
  rw [buildNewHostList_eq_find]
  rw [List.find?_eq_none]
  intro x hx
  simp only [List.mem_reverse] at hx
  intro hbeq
  exact h (List.mem_map.mpr ⟨x, hx, by simpa using hbeq⟩)

/-- C6: `UpdateTrackingList` replaces the active host set wholesale with a
fresh mapping keyed by check URL — the result does not depend on the previous
set, a URL absent from the new list is absent from the new map, for a
duplicated URL the later descriptor wins — and when a checker is running the
same new map is pushed to it via `ResetList`. -/
theorem UpdateTrackingList_replaces_wholesale (hc : HostCheckerManager)
    (hd : List HostData) (url : String) (c : HostUptimeChecker)
    (hchk : hc.checker = some c) :
    (UpdateTrackingList hc hd).currentHostList = buildNewHostList hd ∧
    buildNewHostList hd url = hd.reverse.find? (fun h => h.CheckURL == url) ∧
    (url ∉ hd.map HostData.CheckURL → buildNewHostList hd url = none) ∧
    (UpdateTrackingList hc hd).checker =
      some { c with HostList := buildNewHostList hd } := by
  refine ⟨rfl, buildNewHostList_eq_find hd url,
    buildNewHostList_not_mem hd url, ?_⟩
  simp [UpdateTrackingList, hchk]

/-- Two concrete descriptors sharing the check URL `http://dup.example.com/`. -/
def hostDupA : HostData :=
  { CheckURL := "http://dup.example.com/", ID := "http://dup.example.com/",
    MetaData := [], Method := "GET", Headers := [], Body := "A" }

/-- Later descriptor with the same check URL as `hostDupA`. -/
def hostDupB : HostData :=
  { CheckURL := "http://dup.example.com/", ID := "http://dup.example.com/",
    MetaData := [], Method := "GET", Headers := [], Body := "B" }

/-- Concrete manager with a running checker whose list still holds
`hostDupA` under its URL. -/
def hcWithChecker : HostCheckerManager :=
  { Id := "instance-A", store := some emptyStore,
    checker := some { HostList := buildNewHostList [hostDupA] },
    stopLoop := false, pollerStarted := true,
    currentHostList := buildNewHostList [hostDupA] }

/-- Witness for C6: rebuilding with a duplicated URL keeps the later
descriptor, drops URLs not in the new list, and pushes the new map to the
running checker. -/
theorem UpdateTrackingList_replaces_wholesale_witness :
    (UpdateTrackingList hcWithChecker [hostDupA, hostDupB]).currentHostList =
      buildNewHostList [hostDupA, hostDupB] ∧
    buildNewHostList [hostDupA, hostDupB] "http://dup.example.com/" =
      [hostDupA, hostDupB].reverse.find?
        (fun h => h.CheckURL == "http://dup.example.com/") ∧
    (UpdateTrackingList hcWithChecker [hostDupA, hostDupB]).checker =
      some { HostList := buildNewHostList [hostDupA, hostDupB] } := by
  have h := UpdateTrackingList_replaces_wholesale hcWithChecker
    [hostDupA, hostDupB] "http://dup.example.com/"
    { HostList := buildNewHostList [hostDupA] } rfl
  exact ⟨h.1, h.2.1, h.2.2.2⟩

/-- Accumulator characterization of the `SetCheckerHostList` loop: the
descriptors appended are exactly those whose `PrepareTrackingHost` succeeded,
in order, and the failure count is the number of configurations on which it
errored. -/
theorem setCheckerHostList_foldl_acc (items : List (HostCheckObject × String))
    (l : List HostData) (n : Nat) :
    items.foldl
      (fun acc it =>
        match PrepareTrackingHost it.1 it.2 with
        | Except.ok newHostDoc => (acc.1 ++ [newHostDoc], acc.2)
        | Except.error _ => (acc.1, acc.2 + 1))
      (l, n) =
    (l ++ items.filterMap (fun it => (PrepareTrackingHost it.1 it.2).toOption),
     n + (items.filter (fun it => !(PrepareTrackingHost it.1 it.2).isOk)).length) := by
  induction items generalizing l n with
  | nil => simp
  | cons a items ih =>
    cases h : PrepareTrackingHost a.1 a.2 with
    | ok hd =>
      simp only [List.foldl_cons, List.filterMap_cons, List.filter_cons, h,
        Except.toOption, Except.isOk, Except.toBool, Bool.not_true, ih,
        List.append_assoc, List.singleton_append]
      simp
    | error e =>
      simp only [List.foldl_cons, List.filterMap_cons, List.filter_cons, h,
        Except.toOption, Except.isOk, Except.toBool, Bool.not_false, ih,
        List.length_cons]
      simp
      omega

/-- Five concrete check configurations (paired with their API ids); exactly
the third has an invalid base64 body, every other entry is well-formed. -/
def fiveCheckConfigs : List (HostCheckObject × String) :=
  [({ CheckURL := "http://one.example.com/", Method := "GET", Headers := [],
      Body := "" }, "api1"),
   ({ CheckURL := "http://two.example.com/health", Method := "GET",
      Headers := [], Body := "QUJD" }, "api2"),
   ({ CheckURL := "http://three.example.com/", Method := "POST",
      Headers := [("this", "that")], Body := "!!!!" }, "api3"),
   ({ CheckURL := "http://four.example.com/", Method := "GET", Headers := [],
      Body := "aGVsbG8=" }, "api4"),
   ({ CheckURL := "http://five.example.com/", Method := "GET", Headers := [],
      Body := "" }, "api5")]

/-- C4: building the active set skips exactly the configurations on which
`PrepareTrackingHost` errors and keeps all the others in order; on the
concrete batch of 5 configurations of which exactly one has an invalid base64
body, exactly 4 descriptors are produced and exactly 1 error is reported —
the build is not aborted. -/
theorem SetCheckerHostList_skips_only_errors
    (items : List (HostCheckObject × String)) :
    (SetCheckerHostList items).1 =
      items.filterMap (fun it => (PrepareTrackingHost it.1 it.2).toOption) ∧
    (SetCheckerHostList items).2 =
      (items.filter (fun it => !(PrepareTrackingHost it.1 it.2).isOk)).length ∧
    (SetCheckerHostList fiveCheckConfigs).1.length = 4 ∧
    (SetCheckerHostList fiveCheckConfigs).2 = 1 := by
  have hgen := setCheckerHostList_foldl_acc items [] 0
  refine ⟨?_, ?_, ?_, ?_⟩
  · have : SetCheckerHostList items =
        (items.filterMap (fun it => (PrepareTrackingHost it.1 it.2).toOption),
         (items.filter (fun it => !(PrepareTrackingHost it.1 it.2).isOk)).length) := by
      unfold SetCheckerHostList
      rw [hgen]
      simp
    rw [this]
  · have : SetCheckerHostList items =
        (items.filterMap (fun it => (PrepareTrackingHost it.1 it.2).toOption),
         (items.filter (fun it => !(PrepareTrackingHost it.1 it.2).isOk)).length) := by
      unfold SetCheckerHostList
      rw [hgen]
      simp
    rw [this]
  · decide
  · decide
